import Mathlib

/-!
Verification development for the openclaw_skills task-queue core.

Shallow embedding of two source files:

* `src/openclaw-orchestrator/scripts/task-queue-redis.js` — the unified
  queue facade (Redis backend with file-queue fallback) and the durable
  file queue (`readFileQueue`, `writeFileQueue`, `fileEnqueue`,
  `fileDequeue`, `filePeek`, `checkRedis`, `initRedis`, `enqueue`,
  `dequeue`, `peek`, `getStats`).
* the task orchestrator embedded in `src/weather-qweather/SKILL.md`
  (`StateManager`, `RuntimeTracker`, `registerHook`, `triggerHook`, the
  BullMQ worker callback and `createTask` with `attempts: 3`).

Conventions: JS timestamps (`Date.now()`, ISO strings) are modelled by a
`Nat` clock passed explicitly; the random id suffix is an explicit
`String` parameter; JS objects keyed by strings are association lists in
insertion order, matching JS property-update semantics (update in place,
insert at the end).  `Math.round` on the non-negative quotients the
worker computes is round-half-up, modelled exactly over rationals by
integer arithmetic.
-/

set_option maxRecDepth 100000

namespace OpenclawSkills

/-! ## Association lists: JS object field access and assignment -/

/-- Field read `obj[k]` on a JS object modelled as an association list. -/
def lookupA {β : Type} (k : String) : List (String × β) → Option β
  | [] => none
  | (k1, v) :: rest => if k1 = k then some v else lookupA k rest

/-- Field write `obj[k] = v`: updates the existing entry in place, or
appends a new entry at the end, exactly as JS property assignment orders
keys. -/
def setA {β : Type} (k : String) (v : β) : List (String × β) → List (String × β)
  | [] => [(k, v)]
  | (k1, w) :: rest => if k1 = k then (k1, v) :: rest else (k1, w) :: setA k v rest

/-! ## Durable file queue (task-queue-redis.js lines 68-116)

The backing store `queue.json` holds a JSON array of task records; it is
modelled as a `List TaskRecord`.  `writeFileQueue` (lines 81-87) wraps
`fs.writeFileSync` in try/catch and swallows any error, so a mutating
call takes a `writeOk : Bool` saying whether the write succeeded; on
failure the persisted store keeps its previous contents. -/

/-- Caller-supplied task shape `{ name, data }` passed to `enqueue`. -/
structure Task where
  name : String
  data : String
deriving DecidableEq, Repr

/-- A queued record as built by `fileEnqueue` (lines 91-96):
id `file-<Date.now()>-<random>`, the task fields, `queuedAt`, and
`source: file`. -/
structure TaskRecord where
  id : String
  name : String
  data : String
  queuedAt : Nat
  source : String
deriving DecidableEq, Repr

/-- The record literal built by `fileEnqueue`, with the clock and the
random suffix made explicit. -/
def mkFileRecord (now : Nat) (rand : String) (t : Task) : TaskRecord :=
  { id := "file-" ++ toString now ++ "-" ++ rand
    name := t.name
    data := t.data
    queuedAt := now
    source := "file" }

/-- `fileEnqueue(task)` (lines 89-101): read the store, append the new
record at the tail, write the store back (`writeFileQueue` swallows a
write failure), and return the record unconditionally.  Result:
(returned record, persisted store after the call). -/
def fileEnqueue (now : Nat) (rand : String) (t : Task) (writeOk : Bool)
    (store : List TaskRecord) : TaskRecord × List TaskRecord :=
  let q := store
  let r := mkFileRecord now rand t
  let q1 := q ++ [r]
  (r, if writeOk then q1 else store)

/-- `fileDequeue()` (lines 103-111): read the store; on an empty queue
return null without writing; otherwise shift the head off and write the
remainder back. -/
def fileDequeue (writeOk : Bool) (store : List TaskRecord) :
    Option TaskRecord × List TaskRecord :=
  match store with
  | [] => (none, store)
  | r :: rest => (some r, if writeOk then rest else store)

/-- `filePeek()` (lines 113-116): return the head without mutating. -/
def filePeek (store : List TaskRecord) : Option TaskRecord :=
  match store with
  | [] => none
  | r :: _ => some r

/-- A sequence of successful `fileEnqueue` calls, each item carrying its
clock value, random suffix and task. -/
def enqueueAll (items : List (Nat × String × Task)) (store : List TaskRecord) :
    List TaskRecord :=
  items.foldl (fun q i => (fileEnqueue i.1 i.2.1 i.2.2 true q).2) store

/-! ## File-system effect traces (for the locking claim)

Each primitive file-system call the mutating functions perform, in
program order.  `fileEnqueue` calls `readFileQueue` (one
`fs.readFileSync`, lines 69-79) and then `writeFileQueue` (one
`fs.writeFileSync`, lines 81-87); `fileDequeue` reads, and writes only
when the queue was non-empty.  No locking primitive of any kind appears
in task-queue-redis.js, so the only events its calls can emit are reads
and writes; `lockAcquire`/`lockRelease` are included in the event
alphabet so that the presence of a lock can be stated and decided. -/

inductive FsEvent
  | readStore
  | writeStore
  | lockAcquire
  | lockRelease
deriving DecidableEq, Repr

/-- The file-system calls `fileEnqueue` performs, in order. -/
def fileEnqueueTrace : List FsEvent := [.readStore, .writeStore]

/-- The file-system calls `fileDequeue` performs, in order (the early
return on an empty queue skips the write). -/
def fileDequeueTrace (store : List TaskRecord) : List FsEvent :=
  match store with
  | [] => [.readStore]
  | _ :: _ => [.readStore, .writeStore]

/-! ## Unified queue facade (task-queue-redis.js lines 24-66, 154-255)

Module state: `redis` (null until `initRedis` constructs the client) and
`useRedis` (set once by `initRedis` from the outcome of the initial
`connect()`, and never written anywhere else).  Per call, the
environment supplies whether the broker answers the `ping` probe
(`brokerUp`) and whether the attempted Redis operation succeeds
(`redisOpOk` — it can still fail after a successful probe, in which case
the facade falls through to the file queue). -/

structure QueueFacadeState where
  redisConn : Bool
  useRedis : Bool
deriving DecidableEq, Repr

/-- `initRedis()` (lines 30-55): constructs the client (so `redis` is
non-null afterwards in either branch) and sets `useRedis` to whether the
initial `connect()` succeeded. -/
def initRedis (connectOk : Bool) : QueueFacadeState :=
  { redisConn := true, useRedis := connectOk }

/-- `checkRedis()` (lines 58-66): false when `redis` is null, otherwise
the outcome of a fresh `ping` round-trip. -/
def checkRedis (s : QueueFacadeState) (brokerUp : Bool) : Bool :=
  s.redisConn && brokerUp

inductive Backend
  | redis
  | file
deriving DecidableEq, Repr

/-- The backend that serves a facade call.  This is the common guard of
`enqueue` (lines 155-180), `dequeue` (lines 182-208) and `peek` (lines
210-229): `const redisAvailable = await checkRedis(); if (redisAvailable
&& useRedis) try Redis catch fall through; else file queue`.
`getStats` (lines 231-255) uses the same `redisAvailable && useRedis`
guard for the Redis half of its report. -/
def facadeBackend (s : QueueFacadeState) (brokerUp redisOpOk : Bool) : Backend :=
  if checkRedis s brokerUp && s.useRedis then
    if redisOpOk then .redis else .file
  else .file

/-! ## Task orchestrator (SKILL.md task-orchestrator.js section)

State Manager (lines 439-480): a JSON object mapping task id to the last
persisted snapshot, rewritten wholesale on every `set`.  Runtime Tracker
(lines 485-579): the in-memory `tracking` object.  The hook events the
tracker dispatches through `triggerHook` are recorded as a trace; the
callback-isolation behaviour of `triggerHook` itself is modelled
separately below for the dispatch claim. -/

inductive Status
  | running
  | completed
  | failed
deriving DecidableEq, Repr

/-- One structured entry of `tracking[taskId].logs` (lines 503-514):
`{ timestamp, level, message, ...meta }`; the spread metadata is kept as
a key-value list. -/
structure LogEntry where
  timestamp : Nat
  level : String
  message : String
  meta : List (String × String)
deriving DecidableEq, Repr

/-- The per-task record of `RuntimeTracker.tracking` (created at lines
491-498, extended by `complete`, `fail` and `retry`). -/
structure Tracked where
  taskId : String
  data : String
  startedAt : Nat
  progress : Nat
  logs : List LogEntry
  status : Status
  completedAt : Option Nat := none
  failedAt : Option Nat := none
  result : Option String := none
  error : Option String := none
  duration : Option Nat := none
  retryAttempt : Option Nat := none
deriving DecidableEq, Repr

/-- One entry of the State Manager store: `StateManager.set` (lines
467-470) merges the given data over the old entry and stamps
`updatedAt`; since the tracker always passes a full tracked record, the
merged snapshot is that record. -/
structure PEntry where
  snap : Tracked
  updatedAt : Nat
deriving DecidableEq, Repr

/-- The combined mutable state the tracker operations touch:
`RuntimeTracker.tracking` and the State Manager store.  `loadState`
(lines 444-453) starts from an empty object when no state file exists. -/
structure OrchState where
  tracking : List (String × Tracked)
  persisted : List (String × PEntry)
deriving DecidableEq, Repr

/-- The initial orchestrator state: empty tracker, empty persisted
store. -/
def orchInit : OrchState := { tracking := [], persisted := [] }

/-- The payloads `triggerHook` dispatches, one constructor per lifecycle
event of the `hooks` registry (lines 430-436). -/
inductive HookEvent
  | start (taskId : String) (data : String)
  | progress (taskId : String) (percent : Nat) (message : String)
  | complete (taskId : String) (result : String)
  | fail (taskId : String) (error : String)
  | retry (taskId : String) (attempt : Nat) (error : String)
deriving DecidableEq, Repr

/-- `RuntimeTracker.log` (lines 503-514): appends a structured entry
when the task is tracked, otherwise does nothing.  It dispatches no
hook. -/
def trLog (now : Nat) (id level msg : String) (meta : List (String × String))
    (s : OrchState) : OrchState :=
  match lookupA id s.tracking with
  | none => s
  | some t =>
    let t1 := { t with logs := t.logs ++ [⟨now, level, msg, meta⟩] }
    { s with tracking := setA id t1 s.tracking }

/-- `RuntimeTracker.start` (lines 490-501): unconditionally installs a
fresh record (`progress: 0`, `logs: []`, `status: running`), logs
TASK_START, and fires the start hook. -/
def trStart (now : Nat) (id data : String) (s : OrchState) :
    OrchState × List HookEvent :=
  let t0 : Tracked :=
    { taskId := id, data := data, startedAt := now
      progress := 0, logs := [], status := .running }
  let s1 := { s with tracking := setA id t0 s.tracking }
  let s2 := trLog now id "TASK_START" "任务开始" [] s1
  (s2, [.start id data])

/-- `RuntimeTracker.progress` (lines 516-522): when tracked, store the
percent, log a PROGRESS entry with the percent as metadata, and fire the
progress hook with `percent` and `message`. -/
def trProgress (now : Nat) (id : String) (percent : Nat) (msg : String)
    (s : OrchState) : OrchState × List HookEvent :=
  match lookupA id s.tracking with
  | none => (s, [])
  | some t =>
    let t1 := { t with progress := percent }
    let s1 := { s with tracking := setA id t1 s.tracking }
    let s2 := trLog now id "PROGRESS" msg [("percent", toString percent)] s1
    (s2, [.progress id percent msg])

/-- `RuntimeTracker.complete` (lines 524-536): when tracked, mark the
record completed (completion time, result, duration), log COMPLETE, fire
the complete hook, and persist the current tracked record through
`stateManager.set`. -/
def trComplete (now : Nat) (id result : String) (s : OrchState) :
    OrchState × List HookEvent :=
  match lookupA id s.tracking with
  | none => (s, [])
  | some t =>
    let t1 :=
      { t with
          status := .completed
          completedAt := some now
          result := some result
          duration := some (now - t.startedAt) }
    let s1 := { s with tracking := setA id t1 s.tracking }
    let s2 := trLog now id "COMPLETE" "任务完成" [("result", result)] s1
    let pe : PEntry := { snap := (lookupA id s2.tracking).getD t1, updatedAt := now }
    ({ s2 with persisted := setA id pe s2.persisted }, [.complete id result])

/-- `RuntimeTracker.fail` (lines 538-550): when tracked, mark the record
failed (failure time, error, duration), log ERROR, fire the fail hook,
and persist the current tracked record through `stateManager.set`. -/
def trFail (now : Nat) (id err : String) (s : OrchState) :
    OrchState × List HookEvent :=
  match lookupA id s.tracking with
  | none => (s, [])
  | some t =>
    let t1 :=
      { t with
          status := .failed
          failedAt := some now
          error := some err
          duration := some (now - t.startedAt) }
    let s1 := { s with tracking := setA id t1 s.tracking }
    let s2 := trLog now id "ERROR" "任务失败" [("error", err)] s1
    let pe : PEntry := { snap := (lookupA id s2.tracking).getD t1, updatedAt := now }
    ({ s2 with persisted := setA id pe s2.persisted }, [.fail id err])

/-- `RuntimeTracker.retry` (lines 552-558): when tracked, store the
attempt number, log RETRY, and fire the retry hook.  Nothing in the
worker path ever calls this method. -/
def trRetry (now : Nat) (id : String) (attempt : Nat) (err : String)
    (s : OrchState) : OrchState × List HookEvent :=
  match lookupA id s.tracking with
  | none => (s, [])
  | some t =>
    let t1 := { t with retryAttempt := some attempt }
    let s1 := { s with tracking := setA id t1 s.tracking }
    let s2 := trLog now id "RETRY" ("重试 #" ++ toString attempt) [("error", err)] s1
    (s2, [.retry id attempt err])

/-- The operations of the orchestrator core that can touch `tracking`
and the State Manager store.  These are exactly the `RuntimeTracker`
mutators; `StateManager.set` is called only from `complete` and `fail`,
and `StateManager.delete` has no caller anywhere in the orchestrator. -/
inductive Op
  | opStart (now : Nat) (id data : String)
  | opLog (now : Nat) (id level msg : String) (meta : List (String × String))
  | opProgress (now : Nat) (id : String) (percent : Nat) (msg : String)
  | opComplete (now : Nat) (id result : String)
  | opFail (now : Nat) (id err : String)
  | opRetry (now : Nat) (id : String) (attempt : Nat) (err : String)

/-- Apply one core operation, returning the new state and the hook
events it dispatched. -/
def applyOp (o : Op) (s : OrchState) : OrchState × List HookEvent :=
  match o with
  | .opStart now id data => trStart now id data s
  | .opLog now id level msg meta => (trLog now id level msg meta s, [])
  | .opProgress now id percent msg => trProgress now id percent msg s
  | .opComplete now id result => trComplete now id result s
  | .opFail now id err => trFail now id err s
  | .opRetry now id attempt err => trRetry now id attempt err s

/-- Run a sequence of core operations from a state. -/
def runOps (ops : List Op) (s : OrchState) : OrchState :=
  ops.foldl (fun s o => (applyOp o s).1) s

/-! ## The worker callback and the retry driver (SKILL.md lines 616-644,
660-671)

`createTask` adds the job with `attempts: 3`, so the queue library
re-invokes the worker callback on a thrown error until it either returns
normally or `attempts` executions have happened (BullMQ retry
semantics).  The callback itself is source: start the tracker, announce
each step through `tracker.progress` with `Math.round((i /
steps.length) * 100)` before executing it, `tracker.complete` on normal
exit, and on a thrown step error `tracker.fail` and rethrow.  A step is
modelled by its name and its outcome when executed (`none` = returns,
`some err` = throws `err`); the JS result object `{ success: true }`
passed to `complete` is modelled by the string `"success"`. -/

/-- One step of a multi-step job: `{ name, execute }`, with the outcome
of `execute` made explicit. -/
structure Step where
  name : String
  outcome : Option String
deriving DecidableEq, Repr

/-- `Math.round((i / n) * 100)` computed exactly over rationals:
round-half-up of `100 * i / n`, as integer arithmetic. -/
def jsRound (i n : Nat) : Nat := (200 * i + n) / (2 * n)

/-- The step loop of the worker callback (lines 625-635): for each step,
report progress `jsRound i n` with message `Step <i+1>: <name>`, then
execute the step; a thrown error aborts the remaining steps.  Returns
the state, the dispatched hook events, and the thrown error if any. -/
def execSteps (now : Nat) (id : String) (n : Nat) :
    List Step → Nat → OrchState → OrchState × List HookEvent × Option String
  | [], _, s => (s, [], none)
  | st :: rest, i, s =>
    let r1 := trProgress now id (jsRound i n) ("Step " ++ toString (i + 1) ++ ": " ++ st.name) s
    match st.outcome with
    | some err => (r1.1, r1.2, some err)
    | none =>
      let r2 := execSteps now id n rest (i + 1) r1.1
      (r2.1, r1.2 ++ r2.2.1, r2.2.2)

/-- One invocation of the worker callback (lines 616-644): `tracker.start`,
the step loop when steps are present, then `tracker.complete` on success
or `tracker.fail` followed by a rethrow on a step error.  The returned
Bool is whether the callback returned normally (false = it threw). -/
def workerAttempt (now : Nat) (id data : String) (steps : List Step)
    (s : OrchState) : OrchState × List HookEvent × Bool :=
  let r0 := trStart now id data s
  if steps.length = 0 then
    let r1 := trComplete now id "success" r0.1
    (r1.1, r0.2 ++ r1.2, true)
  else
    let r1 := execSteps now id steps.length steps 0 r0.1
    match r1.2.2 with
    | none =>
      let r2 := trComplete now id "success" r1.1
      (r2.1, r0.2 ++ r1.2.1 ++ r2.2, true)
    | some err =>
      let r2 := trFail now id err r1.1
      (r2.1, r0.2 ++ r1.2.1 ++ r2.2, false)

/-- The retry driver: with `attempts: a` (3 in `createTask`), the queue
library runs the callback and, while it throws, re-runs it until `a`
executions have happened.  Returns the state, the concatenated hook
trace of the whole retry sequence, and whether some execution
succeeded. -/
def runJob (now : Nat) (id data : String) (steps : List Step) :
    Nat → OrchState → OrchState × List HookEvent × Bool
  | 0, s => (s, [], false)
  | Nat.succ a, s =>
    let r := workerAttempt now id data steps s
    if r.2.2 then (r.1, r.2.1, true)
    else
      match a with
      | 0 => (r.1, r.2.1, false)
      | Nat.succ b =>
        let r2 := runJob now id data steps (Nat.succ b) r.1
        (r2.1, r.2.1 ++ r2.2.1, r2.2.2)

/-! ## Hook-event counting -/

def isStartEvt : HookEvent → Bool
  | .start _ _ => true
  | _ => false

def isProgressEvt : HookEvent → Bool
  | .progress _ _ _ => true
  | _ => false

def isCompleteEvt : HookEvent → Bool
  | .complete _ _ => true
  | _ => false

def isFailEvt : HookEvent → Bool
  | .fail _ _ => true
  | _ => false

def isRetryEvt : HookEvent → Bool
  | .retry _ _ _ => true
  | _ => false

def countStart (tr : List HookEvent) : Nat := tr.countP isStartEvt

def countComplete (tr : List HookEvent) : Nat := tr.countP isCompleteEvt

def countFail (tr : List HookEvent) : Nat := tr.countP isFailEvt

def countRetry (tr : List HookEvent) : Nat := tr.countP isRetryEvt

/-- The percent arguments of the progress events of a trace, in dispatch
order. -/
def progressPercents (tr : List HookEvent) : List Nat :=
  tr.filterMap fun e =>
    match e with
    | .progress _ p _ => some p
    | _ => none

/-! ## Hook dispatch with callback isolation (SKILL.md lines 568-589)

For the dispatch claim the callbacks themselves matter, not just the
events, so `triggerHook` is modelled over abstract callbacks: a callback
receives `(taskId, payload)` and the ambient world, and either returns a
new world or returns a new world together with a thrown error (a JS
callback can mutate state before throwing).  `triggerHook` runs each
callback of the event list in order inside try/catch, appending caught
errors to a log (`console.error`) and continuing. -/

/-- A registered callback `cb(taskId, data)` acting on an ambient world
`W`; the `Option String` is the error it throws, if any. -/
def CbFun (P W : Type) := String → P → W → W × Option String

/-- The loop body of `hooks[hookName].forEach` with its try/catch,
threading the world and the list of logged errors. -/
def triggerHookFrom {P W : Type} :
    List (CbFun P W) → String → P → W → List String → W × List String
  | [], _, _, w, errs => (w, errs)
  | cb :: rest, id, p, w, errs =>
    let r := cb id p w
    match r.2 with
    | some e => triggerHookFrom rest id p r.1 (errs ++ [e])
    | none => triggerHookFrom rest id p r.1 errs

/-- `triggerHook(hookName, taskId, data)` (lines 568-578) applied to the
callback list registered for the event: invoke every callback in
registration order, catching and logging a thrown error and continuing
with the remaining callbacks. -/
def triggerHook {P W : Type} (cbs : List (CbFun P W)) (id : String) (p : P)
    (w : W) : W × List String :=
  triggerHookFrom cbs id p w []

/-- The `hooks` registry (lines 430-436): one callback list per
lifecycle event. -/
structure HookRegistry (P W : Type) where
  onTaskStart : List (CbFun P W)
  onTaskProgress : List (CbFun P W)
  onTaskComplete : List (CbFun P W)
  onTaskFail : List (CbFun P W)
  onTaskRetry : List (CbFun P W)

/-- The registry before any registration. -/
def emptyRegistry {P W : Type} : HookRegistry P W :=
  { onTaskStart := [], onTaskProgress := [], onTaskComplete := []
    onTaskFail := [], onTaskRetry := [] }

/-- `registerHook(event, callback)` (lines 584-589): append to the list
of a known event, ignore an unknown event name. -/
def registerHook {P W : Type} (h : HookRegistry P W) (event : String)
    (cb : CbFun P W) : HookRegistry P W :=
  if event = "onTaskStart" then { h with onTaskStart := h.onTaskStart ++ [cb] }
  else if event = "onTaskProgress" then { h with onTaskProgress := h.onTaskProgress ++ [cb] }
  else if event = "onTaskComplete" then { h with onTaskComplete := h.onTaskComplete ++ [cb] }
  else if event = "onTaskFail" then { h with onTaskFail := h.onTaskFail ++ [cb] }
  else if event = "onTaskRetry" then { h with onTaskRetry := h.onTaskRetry ++ [cb] }
  else h

/-- A progress callback that records it ran (first flag) and then
throws. -/
def cbThrowSet : CbFun Nat (Bool × Bool) := fun _ _ w => ((true, w.2), some "boom")

/-- A progress callback registered after `cbThrowSet` that records it
ran (second flag) and returns normally. -/
def cbSetSecond : CbFun Nat (Bool × Bool) := fun _ _ w => ((w.1, true), none)

/-- A sample tracked record, used to build concrete states in
witnesses. -/
def sampleTracked : Tracked :=
  { taskId := "a", data := "d", startedAt := 0
    progress := 0, logs := [], status := .running }

/-- A job of `k` steps that all execute normally. -/
def stepsOk (k : Nat) : List Step := List.replicate k { name := "s", outcome := none }

/-- A concrete state tracking only the task id of `sampleTracked`, used
to build witnesses for untracked task ids. -/
def sampleState : OrchState := { tracking := [("a", sampleTracked)], persisted := [] }

/-- Concrete operation sequence used as a witness: a task starts and
completes. -/
def opsW : List Op := [Op.opStart 0 "t" "d", Op.opComplete 1 "t" "ok"]

/-- Concrete follow-up operations used as a witness: the same task id
starts again (status running in the tracker) without reaching a new
terminal transition. -/
def moreW : List Op := [Op.opStart 2 "t" "d2"]

/-! # Helper lemmas -/

theorem lookupA_setA {β : Type} (k1 k2 : String) (v : β) :
    ∀ m : List (String × β),
      lookupA k1 (setA k2 v m) = if k2 = k1 then some v else lookupA k1 m := by
  intro m
  induction m with
  | nil => simp [setA, lookupA]
  | cons hd tl ih =>
    obtain ⟨ka, va⟩ := hd
    by_cases hka : ka = k2
    · subst hka
      by_cases hk : ka = k1 <;> simp [setA, lookupA, hk, ih]
    · by_cases hk : ka = k1
      · subst hk
        have hne : ¬ (k2 = ka) := fun h => hka h.symm
        simp [setA, lookupA, hka, hne]
      · simp [setA, lookupA, hka, hk, ih]

theorem setA_setA {β : Type} (k : String) (v1 v2 : β) :
    ∀ m : List (String × β), setA k v1 (setA k v2 m) = setA k v1 m := by
  intro m
  induction m with
  | nil => simp [setA]
  | cons hd tl ih =>
    obtain ⟨ka, va⟩ := hd
    by_cases hka : ka = k <;> simp [setA, hka, ih]

theorem lookupA_setA_self {β : Type} (k : String) (v : β) (m : List (String × β)) :
    lookupA k (setA k v m) = some v := by
  simp [lookupA_setA]

theorem trLog_persisted (now : Nat) (id level msg : String)
    (meta : List (String × String)) (s : OrchState) :
    (trLog now id level msg meta s).persisted = s.persisted := by
  rcases h : lookupA id s.tracking with _ | t <;> simp [trLog, h]

theorem trLog_setA (now : Nat) (id level msg : String)
    (meta : List (String × String)) (tr : List (String × Tracked))
    (p : List (String × PEntry)) (t1 : Tracked) :
    trLog now id level msg meta { tracking := setA id t1 tr, persisted := p } =
      { tracking := setA id ({ t1 with logs := t1.logs ++ [⟨now, level, msg, meta⟩] }) tr
        persisted := p } := by
  simp [trLog, lookupA_setA_self, setA_setA]

theorem trStart_tracked (now : Nat) (id data : String) (s : OrchState) :
    (trStart now id data s).2 = [.start id data] ∧
    (trStart now id data s).1.persisted = s.persisted ∧
    lookupA id (trStart now id data s).1.tracking =
      some { taskId := id
             data := data
             startedAt := now
             progress := 0
             logs := [⟨now, "TASK_START", "任务开始", []⟩]
             status := .running } := by
  refine ⟨rfl, ?_, ?_⟩
  · simp only [trStart]
    rw [trLog_setA]
  · simp only [trStart]
    rw [trLog_setA]
    simp [lookupA_setA_self]

theorem trProgress_tracked (now : Nat) (id : String) (percent : Nat) (msg : String)
    (s : OrchState) (t : Tracked) (h : lookupA id s.tracking = some t) :
    (trProgress now id percent msg s).2 = [.progress id percent msg] ∧
    (trProgress now id percent msg s).1.persisted = s.persisted ∧
    lookupA id (trProgress now id percent msg s).1.tracking =
      some { t with
               progress := percent
               logs := t.logs ++ [⟨now, "PROGRESS", msg, [("percent", toString percent)]⟩] } := by
  refine ⟨?_, ?_, ?_⟩
  · simp [trProgress, h]
  · simp only [trProgress, h]
    rw [trLog_setA]
  · simp only [trProgress, h]
    rw [trLog_setA]
    simp [lookupA_setA_self]

theorem trRetry_persisted (now : Nat) (id : String) (attempt : Nat) (err : String)
    (s : OrchState) :
    (trRetry now id attempt err s).1.persisted = s.persisted := by
  rcases h : lookupA id s.tracking with _ | t
  · simp [trRetry, h]
  · simp only [trRetry, h]
    rw [trLog_setA]

theorem trComplete_tracked (now : Nat) (id result : String) (s : OrchState) (t : Tracked)
    (h : lookupA id s.tracking = some t) :
    (trComplete now id result s).2 = [.complete id result] ∧
    ((lookupA id (trComplete now id result s).1.tracking).map fun u => u.status) =
      some .completed ∧
    (∀ (k : String) (e : PEntry),
        lookupA k (trComplete now id result s).1.persisted = some e →
          lookupA k s.persisted = some e ∨ e.snap.status = .completed) := by
  refine ⟨?_, ?_, ?_⟩
  · simp [trComplete, h]
  · simp only [trComplete, h]
    rw [trLog_setA]
    simp [lookupA_setA_self]
  · intro k e he
    simp only [trComplete, h] at he
    rw [trLog_setA] at he
    simp only [lookupA_setA_self, Option.getD_some] at he
    rw [lookupA_setA] at he
    by_cases hk : id = k
    · right
      rw [if_pos hk] at he
      cases he
      rfl
    · left
      rwa [if_neg hk] at he

theorem trFail_tracked (now : Nat) (id err : String) (s : OrchState) (t : Tracked)
    (h : lookupA id s.tracking = some t) :
    (trFail now id err s).2 = [.fail id err] ∧
    ((lookupA id (trFail now id err s).1.tracking).map fun u => u.status) =
      some .failed ∧
    (∀ (k : String) (e : PEntry),
        lookupA k (trFail now id err s).1.persisted = some e →
          lookupA k s.persisted = some e ∨ e.snap.status = .failed) := by
  refine ⟨?_, ?_, ?_⟩
  · simp [trFail, h]
  · simp only [trFail, h]
    rw [trLog_setA]
    simp [lookupA_setA_self]
  · intro k e he
    simp only [trFail, h] at he
    rw [trLog_setA] at he
    simp only [lookupA_setA_self, Option.getD_some] at he
    rw [lookupA_setA] at he
    by_cases hk : id = k
    · right
      rw [if_pos hk] at he
      cases he
      rfl
    · left
      rwa [if_neg hk] at he

theorem trProgress_persisted (now : Nat) (id : String) (percent : Nat) (msg : String)
    (s : OrchState) :
    (trProgress now id percent msg s).1.persisted = s.persisted := by
  rcases h : lookupA id s.tracking with _ | t
  · simp [trProgress, h]
  · exact (trProgress_tracked now id percent msg s t h).2.1

theorem trComplete_persisted_cases (now : Nat) (id result : String) (s : OrchState)
    (k : String) (e : PEntry)
    (he : lookupA k (trComplete now id result s).1.persisted = some e) :
    lookupA k s.persisted = some e ∨ e.snap.status = .completed := by
  rcases h : lookupA id s.tracking with _ | t
  · left
    simpa [trComplete, h] using he
  · exact (trComplete_tracked now id result s t h).2.2 k e he

theorem trFail_persisted_cases (now : Nat) (id err : String) (s : OrchState)
    (k : String) (e : PEntry)
    (he : lookupA k (trFail now id err s).1.persisted = some e) :
    lookupA k s.persisted = some e ∨ e.snap.status = .failed := by
  rcases h : lookupA id s.tracking with _ | t
  · left
    simpa [trFail, h] using he
  · exact (trFail_tracked now id err s t h).2.2 k e he

/-- Every persisted write the core can make carries a terminal status:
one operation preserves the invariant that no persisted snapshot has
status running. -/
theorem applyOp_persisted_terminal (o : Op) (s : OrchState)
    (hs : ∀ (k : String) (e : PEntry),
        lookupA k s.persisted = some e → e.snap.status ≠ .running) :
    ∀ (k : String) (e : PEntry),
      lookupA k (applyOp o s).1.persisted = some e → e.snap.status ≠ .running := by
  intro k e he
  cases o with
  | opStart now id data =>
    simp only [applyOp] at he
    apply hs
    rwa [(trStart_tracked now id data s).2.1] at he
  | opLog now id level msg meta =>
    simp only [applyOp] at he
    apply hs
    rwa [trLog_persisted] at he
  | opProgress now id percent msg =>
    simp only [applyOp] at he
    apply hs
    rwa [trProgress_persisted] at he
  | opRetry now id attempt err =>
    simp only [applyOp] at he
    apply hs
    rwa [trRetry_persisted] at he
  | opComplete now id result =>
    simp only [applyOp] at he
    rcases trComplete_persisted_cases now id result s k e he with hold | hc
    · exact hs k e hold
    · rw [hc]
      intro hcon
      cases hcon
  | opFail now id err =>
    simp only [applyOp] at he
    rcases trFail_persisted_cases now id err s k e he with hold | hc
    · exact hs k e hold
    · rw [hc]
      intro hcon
      cases hcon

theorem runOps_persisted_terminal :
    ∀ (ops : List Op) (s : OrchState),
      (∀ (k : String) (e : PEntry),
          lookupA k s.persisted = some e → e.snap.status ≠ .running) →
      ∀ (k : String) (e : PEntry),
        lookupA k (runOps ops s).persisted = some e → e.snap.status ≠ .running := by
  intro ops
  induction ops with
  | nil =>
    intro s hs
    simpa [runOps] using hs
  | cons o rest ih =>
    intro s hs
    have h1 := applyOp_persisted_terminal o s hs
    have h2 := ih (applyOp o s).1 h1
    simpa [runOps] using h2

theorem enqueueAll_eq_append (items : List (Nat × String × Task)) :
    ∀ store : List TaskRecord,
      enqueueAll items store =
        store ++ items.map (fun i => mkFileRecord i.1 i.2.1 i.2.2) := by
  induction items with
  | nil => intro store; simp [enqueueAll]
  | cons hd tl ih =>
    intro store
    simp [enqueueAll, fileEnqueue] at ih ⊢
    rw [ih]
    simp

theorem jsRound_le_succ (n j : Nat) : jsRound j n ≤ jsRound (j + 1) n := by
  unfold jsRound
  exact Nat.div_le_div_right (by omega)

theorem jsRound_lt_100 (j n : Nat) (hj : j < n) (hn : n ≤ 199) : jsRound j n < 100 := by
  unfold jsRound
  have h2n : 0 < 2 * n := by omega
  rw [Nat.div_lt_iff_lt_mul h2n]
  omega

theorem chain_le_map_range (f : Nat → Nat) (hf : ∀ j, f j ≤ f (j + 1)) :
    ∀ (m i : Nat), List.Chain' (fun a b => a ≤ b) ((List.range' i m).map f) := by
  intro m
  induction m with
  | zero =>
    intro i
    simp
  | succ k ih =>
    intro i
    cases k with
    | zero =>
      simp
    | succ l =>
      rw [List.range'_succ, List.map_cons]
      rw [List.range'_succ, List.map_cons, List.chain'_cons]
      constructor
      · exact hf i
      · have h2 := ih (i + 1)
        rwa [List.range'_succ, List.map_cons] at h2

theorem progressPercents_append (t1 t2 : List HookEvent) :
    progressPercents (t1 ++ t2) = progressPercents t1 ++ progressPercents t2 := by
  simp [progressPercents]

/-- Trace counting helpers. -/
theorem countFail_append (t1 t2 : List HookEvent) :
    countFail (t1 ++ t2) = countFail t1 + countFail t2 :=
  List.countP_append isFailEvt t1 t2

theorem countComplete_append (t1 t2 : List HookEvent) :
    countComplete (t1 ++ t2) = countComplete t1 + countComplete t2 :=
  List.countP_append isCompleteEvt t1 t2

theorem countFail_start (id data : String) : countFail [.start id data] = 0 := rfl

theorem countFail_progress (id : String) (p : Nat) (m : String) :
    countFail [.progress id p m] = 0 := rfl

theorem countFail_fail (id err : String) : countFail [.fail id err] = 1 := rfl

theorem countComplete_start (id data : String) : countComplete [.start id data] = 0 := rfl

theorem countComplete_progress (id : String) (p : Nat) (m : String) :
    countComplete [.progress id p m] = 0 := rfl

theorem countComplete_fail (id err : String) : countComplete [.fail id err] = 0 := rfl

/-- Behaviour of the step loop when the task id is tracked: the task id
stays tracked, the loop throws exactly when some step throws, its trace
consists of progress events only (no fail, no complete), and the
reported percents are `jsRound` of the consecutive step indices actually
announced. -/
theorem execSteps_spec (now : Nat) (id : String) (n : Nat) :
    ∀ (steps : List Step) (i : Nat) (s : OrchState) (t : Tracked),
      lookupA id s.tracking = some t →
      (lookupA id (execSteps now id n steps i s).1.tracking).isSome = true ∧
      ((execSteps now id n steps i s).2.2.isSome =
        steps.any fun st => st.outcome.isSome) ∧
      countFail (execSteps now id n steps i s).2.1 = 0 ∧
      countComplete (execSteps now id n steps i s).2.1 = 0 ∧
      (∃ m, m ≤ steps.length ∧
        progressPercents (execSteps now id n steps i s).2.1 =
          (List.range' i m).map fun j => jsRound j n) := by
  intro steps
  induction steps with
  | nil =>
    intro i s t h
    refine ⟨?_, ?_, ?_, ?_, ⟨0, Nat.le_refl 0, ?_⟩⟩ <;>
      simp [execSteps, countFail, countComplete, progressPercents, h]
  | cons st rest ih =>
    intro i s t h
    have hp := trProgress_tracked now id (jsRound i n)
      ("Step " ++ toString (i + 1) ++ ": " ++ st.name) s t h
    rcases hst : st.outcome with _ | err
    · obtain ⟨hu, hres, hf, hc, ⟨m, hm, hpc⟩⟩ :=
        ih (i + 1)
          (trProgress now id (jsRound i n) ("Step " ++ toString (i + 1) ++ ": " ++ st.name) s).1
          _ hp.2.2
      refine ⟨?_, ?_, ?_, ?_, ⟨m + 1, ?_, ?_⟩⟩
      · simpa [execSteps, hst] using hu
      · simpa [execSteps, hst, List.any_cons] using hres
      · simp only [execSteps, hst]
        rw [countFail_append, hp.1, countFail_progress, hf]
      · simp only [execSteps, hst]
        rw [countComplete_append, hp.1, countComplete_progress, hc]
      · simpa using Nat.succ_le_succ hm
      · simp only [execSteps, hst]
        rw [progressPercents_append, hp.1, hpc, List.range'_succ, List.map_cons]
        simp [progressPercents]
    · refine ⟨?_, ?_, ?_, ?_, ⟨1, ?_, ?_⟩⟩
      · simp only [execSteps, hst]
        rw [hp.2.2]
        rfl
      · simp [execSteps, hst, List.any_cons]
      · simp only [execSteps, hst]
        rw [hp.1, countFail_progress]
      · simp only [execSteps, hst]
        rw [hp.1, countComplete_progress]
      · simp
      · simp only [execSteps, hst]
        rw [hp.1]
        simp [progressPercents]

/-- One execution of the worker callback on a job with a throwing step:
the callback throws, its trace contains exactly one fail event, no
complete event, and the tracked status afterwards is failed. -/
theorem workerAttempt_throws (now : Nat) (id data : String) (steps : List Step)
    (s : OrchState) (h : (steps.any fun st => st.outcome.isSome) = true) :
    (workerAttempt now id data steps s).2.2 = false ∧
    countFail (workerAttempt now id data steps s).2.1 = 1 ∧
    countComplete (workerAttempt now id data steps s).2.1 = 0 ∧
    ((lookupA id (workerAttempt now id data steps s).1.tracking).map fun u => u.status) =
      some .failed := by
  have hlen : ¬ steps.length = 0 := by
    cases steps with
    | nil => simp at h
    | cons a l => simp
  have hstart := trStart_tracked now id data s
  obtain ⟨hu, hres, hf, hc, _⟩ :=
    execSteps_spec now id steps.length steps 0 (trStart now id data s).1 _ hstart.2.2
  rw [h] at hres
  obtain ⟨u, hu2⟩ := Option.isSome_iff_exists.mp hu
  rcases hsome : (execSteps now id steps.length steps 0 (trStart now id data s).1).2.2
    with _ | err
  · rw [hsome] at hres
    simp at hres
  · have hfail := trFail_tracked now id err
      (execSteps now id steps.length steps 0 (trStart now id data s).1).1 u hu2
    refine ⟨?_, ?_, ?_, ?_⟩
    · simp [workerAttempt, hlen, hsome]
    · simp only [workerAttempt, hlen, hsome]
      simp only [if_false, Bool.false_eq_true, ite_false]
      rw [countFail_append, countFail_append, hstart.1, hfail.1,
        countFail_start, countFail_fail, hf]
    · simp only [workerAttempt, hlen, hsome]
      simp only [if_false, Bool.false_eq_true, ite_false]
      rw [countComplete_append, countComplete_append, hstart.1, hfail.1,
        countComplete_start, countComplete_fail, hc]
    · simp only [workerAttempt, hlen, hsome]
      simp only [if_false, Bool.false_eq_true, ite_false]
      exact hfail.2.1

/-- The whole retry sequence of a job whose steps always throw: with `a`
allowed executions, the fail hook fires exactly `a` times, the complete
hook never fires, the job ends unsuccessful, and (when at least one
execution happened) the tracked status is failed. -/
theorem runJob_throws (now : Nat) (id data : String) (steps : List Step)
    (h : (steps.any fun st => st.outcome.isSome) = true) :
    ∀ (a : Nat) (s : OrchState),
      countFail (runJob now id data steps a s).2.1 = a ∧
      countComplete (runJob now id data steps a s).2.1 = 0 ∧
      (runJob now id data steps a s).2.2 = false ∧
      (1 ≤ a →
        ((lookupA id (runJob now id data steps a s).1.tracking).map fun u => u.status) =
          some .failed) := by
  intro a
  induction a with
  | zero =>
    intro s
    refine ⟨?_, ?_, ?_, ?_⟩ <;> simp [runJob, countFail, countComplete]
  | succ b ih =>
    intro s
    have hw := workerAttempt_throws now id data steps s h
    cases b with
    | zero =>
      refine ⟨?_, ?_, ?_, ?_⟩
      · simp only [runJob, hw.1]
        simpa using hw.2.1
      · simp only [runJob, hw.1]
        simpa using hw.2.2.1
      · simp [runJob, hw.1]
      · intro _
        simp only [runJob, hw.1]
        simpa using hw.2.2.2
    | succ c =>
      have ihw := ih (workerAttempt now id data steps s).1
      refine ⟨?_, ?_, ?_, ?_⟩
      · simp only [runJob, hw.1]
        simp only [Bool.false_eq_true, ite_false]
        rw [countFail_append, hw.2.1, ihw.1]
        omega
      · simp only [runJob, hw.1]
        simp only [Bool.false_eq_true, ite_false]
        rw [countComplete_append, hw.2.2.1, ihw.2.1]
      · simp only [runJob, hw.1]
        simpa using ihw.2.2.1
      · intro _
        simp only [runJob, hw.1]
        simpa using ihw.2.2.2 (by omega)

/-- The percents the progress hook reports during one worker-callback
execution are `jsRound` of the announced step indices, which are an
initial run of `0, 1, 2, ...` of length at most the number of steps. -/
theorem workerAttempt_percents (now : Nat) (id data : String) (steps : List Step)
    (s : OrchState) :
    ∃ m, m ≤ steps.length ∧
      progressPercents (workerAttempt now id data steps s).2.1 =
        (List.range' 0 m).map fun j => jsRound j steps.length := by
  have hstart := trStart_tracked now id data s
  by_cases hlen : steps.length = 0
  · refine ⟨0, by omega, ?_⟩
    have hcomp : progressPercents (trComplete now id "success" (trStart now id data s).1).2 = [] := by
      rcases hl : lookupA id (trStart now id data s).1.tracking with _ | t
      · simp [trComplete, hl, progressPercents]
      · simp [(trComplete_tracked now id "success" (trStart now id data s).1 t hl).1,
          progressPercents]
    simp only [workerAttempt, hlen, if_true, ite_true]
    rw [progressPercents_append, hcomp, hstart.1]
    simp [progressPercents]
  · obtain ⟨_, _, _, _, ⟨m, hm, hpc⟩⟩ :=
      execSteps_spec now id steps.length steps 0 (trStart now id data s).1 _ hstart.2.2
    refine ⟨m, hm, ?_⟩
    rcases hsome : (execSteps now id steps.length steps 0 (trStart now id data s).1).2.2
      with _ | err
    · have hcomp : progressPercents
          (trComplete now id "success"
            (execSteps now id steps.length steps 0 (trStart now id data s).1).1).2 = [] := by
        rcases hl : lookupA id
            (execSteps now id steps.length steps 0 (trStart now id data s).1).1.tracking
          with _ | t
        · simp [trComplete, hl, progressPercents]
        · simp [(trComplete_tracked now id "success" _ t hl).1, progressPercents]
      simp only [workerAttempt, hlen, hsome]
      simp only [if_false, Bool.false_eq_true, ite_false]
      rw [progressPercents_append, progressPercents_append, hstart.1, hpc, hcomp]
      simp [progressPercents]
    · have hfailtr : progressPercents
          (trFail now id err
            (execSteps now id steps.length steps 0 (trStart now id data s).1).1).2 = [] := by
        rcases hl : lookupA id
            (execSteps now id steps.length steps 0 (trStart now id data s).1).1.tracking
          with _ | t
        · simp [trFail, hl, progressPercents]
        · simp [(trFail_tracked now id err _ t hl).1, progressPercents]
      simp only [workerAttempt, hlen, hsome]
      simp only [if_false, Bool.false_eq_true, ite_false]
      rw [progressPercents_append, progressPercents_append, hstart.1, hpc, hfailtr]
      simp [progressPercents]

/-! # Claim theorems -/

/-- Claim C1, counterexample.  The claim states that for every facade
operation the choice of backend depends only on the outcome of the
fresh reachability probe of that call.  False: two module states with
the same probe outcome (`checkRedis` true in both) choose different
backends, because the guard also consults the `useRedis` flag that
`initRedis` set once — a cached broker-liveness belief persisting across
calls.  A state with `useRedis = false` (initial connect failed) keeps
serving from the file queue even though the probe now succeeds. -/
theorem C1_probe_only_refuted :
    checkRedis { redisConn := true, useRedis := true } true =
      checkRedis { redisConn := true, useRedis := false } true ∧
    facadeBackend { redisConn := true, useRedis := true } true true ≠
      facadeBackend { redisConn := true, useRedis := false } true true := by
  decide

/-- Claim C1, amended.  Every facade call does probe afresh, and the
backend choice is the conjunction of that fresh probe with the
init-time `useRedis` flag: (1) a probe failure on the current call
always sends the call to the file queue, whatever happened before, so a
broker that became unreachable is honoured immediately; (2) when
`initRedis` failed, the facade uses the file queue forever, even for a
probe that now succeeds; (3) when `initRedis` succeeded, the backend of
each call tracks that call's probe (and falls back to file on a Redis
operation failure), so both directions of a reachability change between
two calls are honoured. -/
theorem C1_fresh_probe_and_init_flag :
    (∀ (s : QueueFacadeState) (redisOpOk : Bool),
        facadeBackend s false redisOpOk = .file) ∧
    (∀ (s : QueueFacadeState) (brokerUp redisOpOk : Bool),
        s.useRedis = false → facadeBackend s brokerUp redisOpOk = .file) ∧
    (∀ brokerUp redisOpOk : Bool,
        facadeBackend (initRedis true) brokerUp redisOpOk =
          if brokerUp && redisOpOk then .redis else .file) := by
  refine ⟨?_, ?_, ?_⟩
  · intro s redisOpOk
    simp [facadeBackend, checkRedis]
  · intro s brokerUp redisOpOk h
    simp [facadeBackend, checkRedis, h]
  · decide

/-- Witness for the amended C1 theorem at a concrete state: after a
failed initial connect, a call whose probe succeeds and whose Redis
operation would succeed is still served by the file queue. -/
theorem C1_fresh_probe_and_init_flag_witness :
    facadeBackend { redisConn := true, useRedis := false } true true = Backend.file :=
  C1_fresh_probe_and_init_flag.2.1 { redisConn := true, useRedis := false } true true rfl

/-- Claim C5, confirmed.  The file backend is FIFO: `fileEnqueue`
appends the new record at the tail of the persisted sequence,
`fileDequeue` removes and returns the head, and after any non-empty
sequence of enqueues on an initially empty store the first dequeue
returns the record built from the first task enqueued. -/
theorem C5_file_fifo :
    (∀ (now : Nat) (rand : String) (t : Task) (store : List TaskRecord),
        (fileEnqueue now rand t true store).2 = store ++ [mkFileRecord now rand t]) ∧
    (∀ (r : TaskRecord) (rest : List TaskRecord),
        fileDequeue true (r :: rest) = (some r, rest)) ∧
    (∀ (it : Nat × String × Task) (its : List (Nat × String × Task)),
        (fileDequeue true (enqueueAll (it :: its) [])).1 =
          some (mkFileRecord it.1 it.2.1 it.2.2)) := by
  refine ⟨?_, ?_, ?_⟩
  · intro now rand t store
    simp [fileEnqueue]
  · intro r rest
    simp [fileDequeue]
  · intro it its
    rw [enqueueAll_eq_append]
    simp [fileDequeue]

/-- Claim C8, counterexample.  The claim states that every mutating
file-queue call performs its read-modify-write while holding an
exclusive file-level lock.  False: the file-system traces of
`fileEnqueue` and `fileDequeue` contain no lock acquisition (and no
release) at all — task-queue-redis.js never takes a lock. -/
theorem C8_lock_refuted :
    FsEvent.lockAcquire ∉ fileEnqueueTrace ∧
    FsEvent.lockRelease ∉ fileEnqueueTrace ∧
    FsEvent.lockAcquire ∉ fileDequeueTrace [] ∧
    FsEvent.lockAcquire ∉ fileDequeueTrace [mkFileRecord 0 "x" { name := "n", data := "d" }] := by
  decide

/-- Claim C8, amended.  Each mutating file-queue call performs a full,
unsynchronized read-modify-write of the backing store: one read of the
whole store followed by one whole-store write (the write is skipped when
an empty dequeue returns early), with no lock acquired or released, so
at-most-one-mutator across processes is not ensured by these calls. -/
theorem C8_unsynchronized_rmw :
    fileEnqueueTrace = [FsEvent.readStore, FsEvent.writeStore] ∧
    fileDequeueTrace [] = [FsEvent.readStore] ∧
    (∀ (r : TaskRecord) (rest : List TaskRecord),
        fileDequeueTrace (r :: rest) = [FsEvent.readStore, FsEvent.writeStore]) := by
  exact ⟨rfl, rfl, fun r rest => rfl⟩

/-- Claim C10, confirmed.  When the write of the backing store fails,
`fileEnqueue` still returns the newly built record with its generated
id (`writeFileQueue` swallows the error), while the persisted store is
left unchanged; on a successful write the same record is returned. -/
theorem C10_enqueue_swallows_write_error :
    ∀ (now : Nat) (rand : String) (t : Task) (store : List TaskRecord),
      (fileEnqueue now rand t false store).1 = mkFileRecord now rand t ∧
      (fileEnqueue now rand t false store).2 = store ∧
      (fileEnqueue now rand t true store).1 = mkFileRecord now rand t := by
  intro now rand t store
  exact ⟨rfl, rfl, rfl⟩

/-- Claim C2, counterexample.  The claim states that a task failing on
every attempt up to the attempt ceiling fires the fail hook exactly once
over the whole retry sequence.  False at a concrete input: a one-step
task whose step always throws, run with the configured ceiling of 3
attempts, fires the fail hook three times — once per failed attempt —
(and indeed never fires complete). -/
theorem C2_exactly_once_refuted :
    countFail (runJob 0 "t2" "d" [{ name := "s1", outcome := some "boom" }] 3 orchInit).2.1 ≠ 1 ∧
    countFail (runJob 0 "t2" "d" [{ name := "s1", outcome := some "boom" }] 3 orchInit).2.1 = 3 ∧
    countComplete (runJob 0 "t2" "d" [{ name := "s1", outcome := some "boom" }] 3 orchInit).2.1 = 0 := by
  decide

/-- Claim C2, amended.  A task whose execution fails on every attempt
fires the fail hook exactly once per failed attempt — `attempts` times
over the whole retry sequence, 3 under the configured ceiling — because
the worker callback calls `tracker.fail` on each thrown attempt; the
complete hook never fires for that task, and after the run the tracked
status is failed. -/
theorem C2_fail_once_per_attempt (now : Nat) (id data : String) (steps : List Step)
    (attempts : Nat) (s : OrchState)
    (hthrow : (steps.any fun st => st.outcome.isSome) = true) (ha : 1 ≤ attempts) :
    countFail (runJob now id data steps attempts s).2.1 = attempts ∧
    countComplete (runJob now id data steps attempts s).2.1 = 0 ∧
    ((lookupA id (runJob now id data steps attempts s).1.tracking).map fun u => u.status) =
      some .failed := by
  obtain ⟨h1, h2, h3, h4⟩ := runJob_throws now id data steps hthrow attempts s
  exact ⟨h1, h2, h4 ha⟩

/-- Witness for the amended C2 theorem: the always-failing one-step task
under 3 attempts fires fail three times, complete never, and ends with
tracked status failed. -/
theorem C2_fail_once_per_attempt_witness :
    countFail (runJob 0 "w2" "d" [{ name := "s1", outcome := some "boom" }] 3 orchInit).2.1 = 3 ∧
    countComplete (runJob 0 "w2" "d" [{ name := "s1", outcome := some "boom" }] 3 orchInit).2.1 = 0 ∧
    ((lookupA "w2"
        (runJob 0 "w2" "d" [{ name := "s1", outcome := some "boom" }] 3 orchInit).1.tracking).map
      fun u => u.status) = some Status.failed :=
  C2_fail_once_per_attempt 0 "w2" "d" [{ name := "s1", outcome := some "boom" }] 3 orchInit
    (by decide) (by decide)

/-- Claim C3, code divergence.  The claim (and the repository
documentation, which lists a retry callback among the lifecycle hooks
and registers a default one) states that every retry fires the retry
hook with the attempt number and the error.  The worker callback never
calls `tracker.retry`: over the whole retry sequence of an always-failing
one-step task with 3 attempts — which re-executes the callback twice
after the first failure, as the three start events show — not a single
retry hook event is dispatched. -/
theorem C3_retry_hook_never_fires :
    countRetry (runJob 0 "t1" "d" [{ name := "step1", outcome := some "boom" }] 3 orchInit).2.1 = 0 ∧
    countStart (runJob 0 "t1" "d" [{ name := "step1", outcome := some "boom" }] 3 orchInit).2.1 = 3 ∧
    (runJob 0 "t1" "d" [{ name := "step1", outcome := some "boom" }] 3 orchInit).2.2 = false := by
  decide

/-- Claim C4, counterexample.  The claim states that the value 100 is
reached only after the final step.  False for large step counts: on a
201-step task that completes, `Math.round((200 / 201) * 100) = 100`, so
the progress hook already reports 100 when the final step is announced,
before that step has executed and before completion. -/
theorem C4_hundred_before_final_step :
    100 ∈ progressPercents (workerAttempt 0 "t" "d" (stepsOk 201) orchInit).2.1 ∧
    (workerAttempt 0 "t" "d" (stepsOk 201) orchInit).2.2 = true := by
  decide

/-- Claim C4, amended.  Within one worker-callback execution the
reported progress percents are monotonically non-decreasing, and for
tasks of at most 199 steps every reported value is strictly below 100
(so 100 is never reported before completion); a 4-step task reports
0, 25, 50, 75.  For 200 or more steps the announcement of the final
step already rounds to 100. -/
theorem C4_progress_monotone_bounded (now : Nat) (id data : String) (steps : List Step)
    (s : OrchState) :
    List.Chain' (fun a b => a ≤ b) (progressPercents (workerAttempt now id data steps s).2.1) ∧
    (steps.length ≤ 199 →
      (progressPercents (workerAttempt now id data steps s).2.1).all
        (fun p => decide (p < 100)) = true) ∧
    progressPercents (workerAttempt 0 "t4" "d" (stepsOk 4) orchInit).2.1 = [0, 25, 50, 75] := by
  obtain ⟨m, hm, hpc⟩ := workerAttempt_percents now id data steps s
  refine ⟨?_, ?_, by decide⟩
  · rw [hpc]
    exact chain_le_map_range (fun j => jsRound j steps.length)
      (jsRound_le_succ steps.length) m 0
  · intro hn
    rw [hpc, List.all_eq_true]
    intro p hp
    rw [List.mem_map] at hp
    obtain ⟨j, hj, rfl⟩ := hp
    rw [List.mem_range'_1] at hj
    have hjn : j < steps.length := by omega
    simpa using jsRound_lt_100 j steps.length hjn hn

/-- Witness for the amended C4 theorem on a concrete 4-step task:
its reported percents are non-decreasing and all strictly below 100. -/
theorem C4_progress_monotone_bounded_witness :
    List.Chain' (fun a b => a ≤ b)
      (progressPercents (workerAttempt 0 "t4" "d" (stepsOk 4) orchInit).2.1) ∧
    (progressPercents (workerAttempt 0 "t4" "d" (stepsOk 4) orchInit).2.1).all
      (fun p => decide (p < 100)) = true :=
  ⟨(C4_progress_monotone_bounded 0 "t4" "d" (stepsOk 4) orchInit).1,
   (C4_progress_monotone_bounded 0 "t4" "d" (stepsOk 4) orchInit).2.1 (by decide)⟩

/-- Claim C6, confirmed.  `triggerHook` invokes every registered
callback in registration order, and a callback that throws is caught
(its error logged) without preventing any later-registered callback from
running: (1) for any callback list, the final world is the left fold of
all the callbacks over the initial world, throws notwithstanding — every
callback runs, in order, on the world left by its predecessors; (2) in
particular, registering on `onTaskProgress` a callback that throws and
then a second callback, dispatching runs both (both flags set), and the
thrown error is logged. -/
theorem C6_dispatch_isolation :
    (∀ (P W : Type) (cbs : List (CbFun P W)) (taskId : String) (pl : P) (w : W),
        (triggerHook cbs taskId pl w).1 =
          cbs.foldl (fun acc cb => (cb taskId pl acc).1) w) ∧
    (triggerHook
        (registerHook (registerHook emptyRegistry "onTaskProgress" cbThrowSet)
          "onTaskProgress" cbSetSecond).onTaskProgress
        "t" (0 : Nat) (false, false) = ((true, true), ["boom"])) := by
  constructor
  · intro P W cbs taskId pl w
    suffices h : ∀ (cbs : List (CbFun P W)) (w : W) (errs : List String),
        (triggerHookFrom cbs taskId pl w errs).1 =
          cbs.foldl (fun acc cb => (cb taskId pl acc).1) w by
      exact h cbs w []
    intro cbs
    induction cbs with
    | nil =>
      intro w errs
      rfl
    | cons cb rest ih =>
      intro w errs
      simp only [triggerHookFrom, List.foldl]
      rcases hcb : (cb taskId pl w).2 with _ | e <;> simp [hcb, ih]
  · rfl

/-- Claim C7, confirmed.  Over every operation sequence of the core
(the Runtime Tracker mutators, the only writers of the State Manager),
once a task id is persisted with status completed, no later operation
sequence can leave it persisted with status running: every persisted
write carries a terminal status (`complete` persists completed, `fail`
persists failed, nothing else writes), so a completed snapshot is never
reverted to running. -/
theorem C7_terminal_never_reverted (ops more : List Op) (id : String)
    (_hC : ((lookupA id (runOps ops orchInit).persisted).map fun e => e.snap.status) =
        some .completed) :
    ((lookupA id (runOps (ops ++ more) orchInit).persisted).map fun e => e.snap.status) ≠
      some .running := by
  intro hrun
  have hbase : ∀ (k : String) (e : PEntry),
      lookupA k orchInit.persisted = some e → e.snap.status ≠ .running := by
    intro k e hk
    simp [orchInit, lookupA] at hk
  have hinv := runOps_persisted_terminal (ops ++ more) orchInit hbase
  rcases hlook : lookupA id (runOps (ops ++ more) orchInit).persisted with _ | e
  · rw [hlook] at hrun
    cases hrun
  · rw [hlook] at hrun
    rw [Option.map_some'] at hrun
    exact hinv id e hlook (Option.some.inj hrun)

/-- Witness for C7 at concrete inputs: a task starts and completes, the
same id then starts again; the persisted snapshot still does not carry
status running. -/
theorem C7_terminal_never_reverted_witness :
    ((lookupA "t" (runOps (opsW ++ moreW) orchInit).persisted).map fun e => e.snap.status) ≠
      some Status.running :=
  C7_terminal_never_reverted opsW moreW "t" (by decide)

/-- Claim C9, confirmed.  Every Runtime Tracker mutator other than
`start` — `log`, `progress`, `complete`, `fail`, `retry` — called with a
task id that has no in-memory tracking record is a silent no-op: the
state (tracker map and persisted store) is returned unchanged and no
hook event is dispatched (`log` never dispatches, by its type). -/
theorem C9_untracked_mutators_noop (s : OrchState) (id : String)
    (h : lookupA id s.tracking = none) :
    (∀ (now : Nat) (level msg : String) (meta : List (String × String)),
        trLog now id level msg meta s = s) ∧
    (∀ (now percent : Nat) (msg : String), trProgress now id percent msg s = (s, [])) ∧
    (∀ (now : Nat) (result : String), trComplete now id result s = (s, [])) ∧
    (∀ (now : Nat) (err : String), trFail now id err s = (s, [])) ∧
    (∀ (now attempt : Nat) (err : String), trRetry now id attempt err s = (s, [])) := by
  refine ⟨?_, ?_, ?_, ?_, ?_⟩
  · intro now level msg meta
    simp [trLog, h]
  · intro now percent msg
    simp [trProgress, h]
  · intro now result
    simp [trComplete, h]
  · intro now err
    simp [trFail, h]
  · intro now attempt err
    simp [trRetry, h]

/-- Witness for C9 at a concrete state tracking only "a": every
non-start mutator applied to the untracked id "b" returns the state
unchanged with no hook event. -/
theorem C9_untracked_mutators_noop_witness :
    trLog 5 "b" "INFO" "m" [] sampleState = sampleState ∧
    trProgress 5 "b" 50 "m" sampleState = (sampleState, []) ∧
    trComplete 5 "b" "ok" sampleState = (sampleState, []) ∧
    trFail 5 "b" "e" sampleState = (sampleState, []) ∧
    trRetry 5 "b" 1 "e" sampleState = (sampleState, []) :=
  ⟨(C9_untracked_mutators_noop sampleState "b" (by decide)).1 5 "INFO" "m" [],
   (C9_untracked_mutators_noop sampleState "b" (by decide)).2.1 5 50 "m",
   (C9_untracked_mutators_noop sampleState "b" (by decide)).2.2.1 5 "ok",
   (C9_untracked_mutators_noop sampleState "b" (by decide)).2.2.2.1 5 "e",
   (C9_untracked_mutators_noop sampleState "b" (by decide)).2.2.2.2 5 1 "e"⟩

end OpenclawSkills
